import Mathlib

/-!
Verification of the ft_logging colorized logger.

The Go package exposes a `Service` holding an immutable list of configured
context keys, a constructor `NewLogger` that prints an initialization line,
three severity methods `Info` / `Success` / `Error` delegating to
`LogWithColor`, and a helper `extractContextInfo` that renders configured
keys found in the ambient context as a comma-separated `key=value` string.

Embedding choices:
* a Go `context.Context` is modelled as a lookup `Ctx := String → Option String`
  returning the `%v` rendering of the stored value when `ctx.Value(key)` is
  non-nil; a possibly-nil context argument is `Option Ctx`;
* the possibly-nil key slice passed to `NewLogger` is `Option (List String)`
  (`none` = Go nil slice, `some l` = a present slice); Go's `len` and `range`
  act on the underlying elements, captured by `keyElems`;
* side-effecting log calls are modelled by the formatted line they write.
-/

namespace FtLogging

/-- ANSI reset sequence `\033[0m`. -/
def colorReset : String := "\x1b[0m"

/-- ANSI red `\033[31m`. -/
def colorRed : String := "\x1b[31m"

/-- ANSI green `\033[32m`. -/
def colorGreen : String := "\x1b[32m"

/-- ANSI white `\033[37m`. -/
def colorWhite : String := "\x1b[37m"

/-- A context lookup: `c k = some v` means `ctx.Value(k)` is non-nil and
renders (via `%v`) as `v`; `c k = none` means the lookup returns nil. -/
def Ctx : Type := String → Option String

/-- The logger service; `contextKeys` is the slice passed to `NewLogger`
(`none` models a Go nil slice). -/
structure Service where
  contextKeys : Option (List String)

/-- Elements of the stored key slice; Go `len`/`range` on a nil slice behave
exactly as on an empty one. -/
def keyElems (s : Service) : List String := s.contextKeys.getD []

/-- The `for i, part = range` joining loop: empty separator before index 0,
`sep` before every later element. -/
def joinWith (sep : String) : List String → String
  | [] => ""
  | [p] => p
  | p :: q :: rest => p ++ sep ++ joinWith sep (q :: rest)

/-- The key-scanning loop of `extractContextInfo`: walks the configured keys
in order, appending `key=value` for each key whose lookup is non-nil. -/
def extractLoop (c : Ctx) (parts : List String) : List String → List String
  | [] => parts
  | key :: rest =>
      match c key with
      | some v => extractLoop c (parts ++ [key ++ "=" ++ v]) rest
      | none => extractLoop c parts rest

/-- `extractContextInfo`: returns `""` for a nil context or an empty key
list; otherwise runs the scanning loop and joins the collected parts with
`", "`, returning `""` when no key resolved. -/
def extractContextInfo (s : Service) (ctx : Option Ctx) : String :=
  match ctx with
  | none => ""
  | some c =>
      if (keyElems s).length = 0 then ""
      else
        let parts := extractLoop c [] (keyElems s)
        if parts.length = 0 then "" else joinWith ", " parts

/-- The optional context section appended after the message: empty when the
extractor returned `""`, otherwise a space and the braced extractor result. -/
def contextPart (s : Service) (ctx : Option Ctx) : String :=
  let contextInfo := extractContextInfo s ctx
  if contextInfo = "" then "" else " \x7b" ++ contextInfo ++ "\x7d"

/-- `LogWithColor`: the formatted line
`color ++ "[" ++ level ++ "]" ++ reset ++ " " ++ message ++ contextPart`. -/
def LogWithColor (s : Service) (ctx : Option Ctx) (color level message : String) : String :=
  color ++ "[" ++ level ++ "]" ++ colorReset ++ " " ++ message ++ contextPart s ctx

/-- `Service.Info`: white, level `INFO`. -/
def Info (s : Service) (ctx : Option Ctx) (message : String) : String :=
  LogWithColor s ctx colorWhite "INFO" message

/-- `Service.Success`: green, level `SUCCESS`. -/
def Success (s : Service) (ctx : Option Ctx) (message : String) : String :=
  LogWithColor s ctx colorGreen "SUCCESS" message

/-- `Service.Error`: red, level `ERROR`. -/
def Error (s : Service) (ctx : Option Ctx) (message : String) : String :=
  LogWithColor s ctx colorRed "ERROR" message

/-- `NewLogger`: stores the key slice verbatim and returns the service
together with the initialization line it prints. -/
def NewLogger (contextKeys : Option (List String)) : Service × String :=
  let service : Service := ⟨contextKeys⟩
  let announce :=
    if (keyElems service).length = 0 then
      "[ft_logging] Initialized with no context extraction"
    else
      "[ft_logging] Initialized with context keys: [" ++
        joinWith ", " (keyElems service) ++ "]"
  (service, announce)

/-- Spec-side description of the collected parts: the `key=value` renderings
of exactly those configured keys whose lookup is defined, in configured
order. -/
def specPairs (keys : List String) (c : Ctx) : List String :=
  keys.filterMap (fun k => (c k).map (fun v => k ++ "=" ++ v))

/-- The extracted pairs viewed as (key, value) pairs, in configured order. -/
def specPairsKV (keys : List String) (c : Ctx) : List (String × String) :=
  keys.filterMap (fun k => (c k).map (fun v => (k, v)))

/-- A string contains a curly brace character. -/
def hasBrace (str : String) : Bool :=
  str.data.any (fun ch => ch == Char.ofNat 123 || ch == Char.ofNat 125)

theorem hasBrace_append (a b : String) :
    hasBrace (a ++ b) = (hasBrace a || hasBrace b) := by
  simp [hasBrace, String.data_append]

theorem extractLoop_eq (c : Ctx) (keys : List String) :
    ∀ acc : List String, extractLoop c acc keys = acc ++ specPairs keys c := by
  induction keys with
  | nil => intro acc; simp [extractLoop, specPairs]
  | cons key rest ih =>
      intro acc
      cases h : c key with
      | none => simp [extractLoop, h, ih, specPairs, List.filterMap_cons, h]
      | some v => simp [extractLoop, h, ih, specPairs, List.filterMap_cons, h]

theorem joinWith_nil (sep : String) : joinWith sep [] = "" := rfl

theorem extractContextInfo_some_eq (s : Service) (c : Ctx) :
    extractContextInfo s (some c) = joinWith ", " (specPairs (keyElems s) c) := by
  unfold extractContextInfo
  rcases hk : keyElems s with _ | ⟨k, ks⟩
  · simp [specPairs, joinWith]
  · simp only [List.length_cons]
    rw [if_neg (by simp)]
    rw [extractLoop_eq c (k :: ks) []]
    simp only [List.nil_append]
    by_cases hp : (specPairs (k :: ks) c).length = 0
    · rw [if_pos hp]
      rw [List.length_eq_zero] at hp
      rw [hp, joinWith_nil]
    · rw [if_neg hp]

theorem extractContextInfo_empty (s : Service) (ctx : Option Ctx)
    (h : keyElems s = [] ∨ ctx = none ∨
      ∃ c, ctx = some c ∧ ∀ k ∈ keyElems s, c k = none) :
    extractContextInfo s ctx = "" := by
  rcases ctx with _ | c
  · rfl
  · rw [extractContextInfo_some_eq]
    rcases h with hk | hn | ⟨c', hc', hall⟩
    · rw [hk]; rfl
    · exact absurd hn (by simp)
    · have hcc : c = c' := by injection hc'
      subst hcc
      have : specPairs (keyElems s) c = [] := by
        simp only [specPairs, List.filterMap_eq_nil_iff]
        intro k hk
        rw [hall k hk]; rfl
      rw [this, joinWith_nil]

theorem contextPart_empty (s : Service) (ctx : Option Ctx)
    (h : extractContextInfo s ctx = "") : contextPart s ctx = "" := by
  simp [contextPart, h]

/-- C1: For every configured key list and every (non-nil) context lookup, the
extractor result is exactly the `key=value` pairs of the configured keys
whose lookup is defined, in configured order, joined with `", "`; keys
absent from the context and keys not configured never contribute. -/
theorem extract_matches_spec (s : Service) (c : Ctx) :
    extractContextInfo s (some c) = joinWith ", " (specPairs (keyElems s) c) :=
  extractContextInfo_some_eq s c

/-- C2: For every severity operation, message and context, the emitted line
is the severity color, the bracketed level, the reset code, a space, the
message verbatim, and — exactly when the extractor result is non-empty — a
space and the braced extractor result. -/
theorem line_shape (s : Service) (ctx : Option Ctx) (msg : String) :
    Info s ctx msg = colorWhite ++ "[" ++ "INFO" ++ "]" ++ colorReset ++ " " ++ msg ++
      (if extractContextInfo s ctx = "" then ""
        else " \x7b" ++ extractContextInfo s ctx ++ "\x7d") ∧
    Success s ctx msg = colorGreen ++ "[" ++ "SUCCESS" ++ "]" ++ colorReset ++ " " ++ msg ++
      (if extractContextInfo s ctx = "" then ""
        else " \x7b" ++ extractContextInfo s ctx ++ "\x7d") ∧
    Error s ctx msg = colorRed ++ "[" ++ "ERROR" ++ "]" ++ colorReset ++ " " ++ msg ++
      (if extractContextInfo s ctx = "" then ""
        else " \x7b" ++ extractContextInfo s ctx ++ "\x7d") :=
  ⟨rfl, rfl, rfl⟩

/-- C3: When the configured key list is empty or absent, the context is
absent, or no configured key resolves in the context, the emitted line is
exactly the colored level tag, the reset code, one space and the message —
no trailing space, no context section — and it contains a brace only if the
message itself does. -/
theorem no_context_section (s : Service) (ctx : Option Ctx) (msg : String)
    (h : keyElems s = [] ∨ ctx = none ∨
      ∃ c, ctx = some c ∧ ∀ k ∈ keyElems s, c k = none) :
    Info s ctx msg = colorWhite ++ "[" ++ "INFO" ++ "]" ++ colorReset ++ " " ++ msg ∧
    Success s ctx msg = colorGreen ++ "[" ++ "SUCCESS" ++ "]" ++ colorReset ++ " " ++ msg ∧
    Error s ctx msg = colorRed ++ "[" ++ "ERROR" ++ "]" ++ colorReset ++ " " ++ msg ∧
    (hasBrace msg = false → hasBrace (Info s ctx msg) = false ∧
      hasBrace (Success s ctx msg) = false ∧ hasBrace (Error s ctx msg) = false) := by
  have he := extractContextInfo_empty s ctx h
  have hp := contextPart_empty s ctx he
  have hI : Info s ctx msg =
      colorWhite ++ "[" ++ "INFO" ++ "]" ++ colorReset ++ " " ++ msg := by
    simp only [Info, LogWithColor, hp]
    rw [String.append_empty]
  have hS : Success s ctx msg =
      colorGreen ++ "[" ++ "SUCCESS" ++ "]" ++ colorReset ++ " " ++ msg := by
    simp only [Success, LogWithColor, hp]
    rw [String.append_empty]
  have hE : Error s ctx msg =
      colorRed ++ "[" ++ "ERROR" ++ "]" ++ colorReset ++ " " ++ msg := by
    simp only [Error, LogWithColor, hp]
    rw [String.append_empty]
  refine ⟨hI, hS, hE, fun hmsg => ⟨?_, ?_, ?_⟩⟩
  · rw [hI]; simp only [hasBrace_append, hmsg, Bool.or_false]; decide
  · rw [hS]; simp only [hasBrace_append, hmsg, Bool.or_false]; decide
  · rw [hE]; simp only [hasBrace_append, hmsg, Bool.or_false]; decide

/-- Witness for C3 at a concrete service, nil context and message. -/
theorem no_context_section_witness :
    Info ⟨some ["request_id"]⟩ none "nil context" =
      colorWhite ++ "[" ++ "INFO" ++ "]" ++ colorReset ++ " " ++ "nil context" ∧
    Success ⟨some ["request_id"]⟩ none "nil context" =
      colorGreen ++ "[" ++ "SUCCESS" ++ "]" ++ colorReset ++ " " ++ "nil context" ∧
    Error ⟨some ["request_id"]⟩ none "nil context" =
      colorRed ++ "[" ++ "ERROR" ++ "]" ++ colorReset ++ " " ++ "nil context" ∧
    (hasBrace "nil context" = false →
      hasBrace (Info ⟨some ["request_id"]⟩ none "nil context") = false ∧
      hasBrace (Success ⟨some ["request_id"]⟩ none "nil context") = false ∧
      hasBrace (Error ⟨some ["request_id"]⟩ none "nil context") = false) :=
  no_context_section ⟨some ["request_id"]⟩ none "nil context" (Or.inr (Or.inl rfl))

/-- C4: Logging never fails: for every service, context, color, level and
message the call is total and yields the formatted line with the message
present, and a nil context always degrades to a line with no context
section. -/
theorem logging_never_fails (s : Service) (ctx : Option Ctx)
    (color level msg : String) :
    (∃ post, LogWithColor s ctx color level msg =
      color ++ "[" ++ level ++ "]" ++ colorReset ++ " " ++ msg ++ post) ∧
    (ctx = none → LogWithColor s ctx color level msg =
      color ++ "[" ++ level ++ "]" ++ colorReset ++ " " ++ msg) := by
  constructor
  · exact ⟨contextPart s ctx, rfl⟩
  · rintro rfl
    have hp : contextPart s none = "" := contextPart_empty s none rfl
    simp only [LogWithColor, hp]
    rw [String.append_empty]

/-- Witness for C4 at a concrete service with a configured key and a nil
context. -/
theorem logging_never_fails_witness :
    LogWithColor ⟨some ["request_id"]⟩ none colorWhite "INFO" "nil context" =
      colorWhite ++ "[" ++ "INFO" ++ "]" ++ colorReset ++ " " ++ "nil context" :=
  (logging_never_fails ⟨some ["request_id"]⟩ none colorWhite "INFO" "nil context").2 rfl

/-- C5: Info always uses the white code and the INFO tag, Success green and
SUCCESS, Error red and ERROR; in every line the reset code comes directly
after the bracketed tag and is followed by a space and the rest of the line,
so it is never at the end. -/
theorem severity_colors (s : Service) (ctx : Option Ctx) (msg : String) :
    Info s ctx msg =
      (colorWhite ++ "[INFO]") ++ (colorReset ++ (" " ++ (msg ++ contextPart s ctx))) ∧
    Success s ctx msg =
      (colorGreen ++ "[SUCCESS]") ++ (colorReset ++ (" " ++ (msg ++ contextPart s ctx))) ∧
    Error s ctx msg =
      (colorRed ++ "[ERROR]") ++ (colorReset ++ (" " ++ (msg ++ contextPart s ctx))) :=
  ⟨rfl, rfl, rfl⟩

/-- C6: Construction with zero keys announces no context extraction;
construction with a non-empty key list announces the bracketed
comma-space-joined keys exactly in configured order, with no
de-duplication. -/
theorem init_announcement :
    (NewLogger none).2 = "[ft_logging] Initialized with no context extraction" ∧
    (NewLogger (some [])).2 = "[ft_logging] Initialized with no context extraction" ∧
    ∀ (k : String) (ks : List String),
      (NewLogger (some (k :: ks))).2 =
        "[ft_logging] Initialized with context keys: [" ++ joinWith ", " (k :: ks) ++ "]" := by
  refine ⟨rfl, rfl, fun k ks => ?_⟩
  simp [NewLogger, keyElems]

/-- C7: A logger built from a nil key slice and one built from an
empty-but-present slice behave identically: same announcement, extraction
always empty, and the same formatted line for every context, color, level
and message. -/
theorem nil_empty_equivalent :
    (NewLogger none).2 = (NewLogger (some [])).2 ∧
    (∀ ctx : Option Ctx, extractContextInfo (NewLogger none).1 ctx = "" ∧
      extractContextInfo (NewLogger (some [])).1 ctx = "") ∧
    ∀ (ctx : Option Ctx) (color level msg : String),
      LogWithColor (NewLogger none).1 ctx color level msg =
        LogWithColor (NewLogger (some [])).1 ctx color level msg := by
  have h1 : ∀ ctx, extractContextInfo (NewLogger none).1 ctx = "" :=
    fun ctx => extractContextInfo_empty _ ctx (Or.inl rfl)
  have h2 : ∀ ctx, extractContextInfo (NewLogger (some [])).1 ctx = "" :=
    fun ctx => extractContextInfo_empty _ ctx (Or.inl rfl)
  refine ⟨rfl, fun ctx => ⟨h1 ctx, h2 ctx⟩, fun ctx color level msg => ?_⟩
  simp only [LogWithColor]
  rw [contextPart_empty _ _ (h1 ctx), contextPart_empty _ _ (h2 ctx)]

/-- C8: A configured key whose lookup is defined with an empty rendered
value is still collected as the part consisting of the key followed by the
equals sign; it is never treated as absent. -/
theorem empty_value_included (keys : List String) (c : Ctx) (k : String)
    (hk : k ∈ keys) (hv : c k = some "") :
    (k ++ "=") ∈ extractLoop c [] keys := by
  rw [extractLoop_eq c keys []]
  simp only [List.nil_append, specPairs]
  exact List.mem_filterMap.mpr ⟨k, hk, by rw [hv]; simp [String.append_empty]⟩

/-- A context defining `request_id` with an empty rendered value. -/
def ctxEmptyVal : Ctx := fun key => if key = "request_id" then some "" else none

/-- Witness for C8 at a concrete key list and context. -/
theorem empty_value_included_witness :
    ("request_id" ∈ (["request_id"] : List String)) ∧
    ctxEmptyVal "request_id" = some "" ∧
    ("request_id" ++ "=") ∈ extractLoop ctxEmptyVal [] ["request_id"] :=
  ⟨by decide, by decide,
    empty_value_included ["request_id"] ctxEmptyVal "request_id" (by decide) (by decide)⟩

/-- C9: Logging is deterministic and pure: the same operation on the same
service with equal context and message arguments yields equal formatted
lines; nothing but the arguments influences the line. -/
theorem logging_deterministic (s : Service) (ctx1 ctx2 : Option Ctx)
    (m1 m2 : String) (hc : ctx1 = ctx2) (hm : m1 = m2) :
    Info s ctx1 m1 = Info s ctx2 m2 ∧
    Success s ctx1 m1 = Success s ctx2 m2 ∧
    Error s ctx1 m1 = Error s ctx2 m2 := by
  subst hc; subst hm; exact ⟨rfl, rfl, rfl⟩

/-- Witness for C9 at a concrete service, context and message. -/
theorem logging_deterministic_witness :
    Info ⟨some ["request_id"]⟩ none "msg" = Info ⟨some ["request_id"]⟩ none "msg" ∧
    Success ⟨some ["request_id"]⟩ none "msg" = Success ⟨some ["request_id"]⟩ none "msg" ∧
    Error ⟨some ["request_id"]⟩ none "msg" = Error ⟨some ["request_id"]⟩ none "msg" :=
  logging_deterministic ⟨some ["request_id"]⟩ none none "msg" "msg" rfl rfl

theorem specPairsKV_count (keys : List String) (c : Ctx) (k v : String)
    (h : c k = some v) :
    (specPairsKV keys c).count (k, v) = keys.count k := by
  induction keys with
  | nil => simp [specPairsKV]
  | cons a rest ih =>
      rcases eq_or_ne a k with rfl | hne
      · simp only [specPairsKV, List.filterMap_cons, h] at *
        simp [List.count_cons, ih]
      · cases hc : c a with
        | none =>
            simp only [specPairsKV, List.filterMap_cons, hc] at *
            simp [List.count_cons, Ne.symm hne, ih]
        | some w =>
            simp only [specPairsKV, List.filterMap_cons, hc] at *
            simp [List.count_cons, Ne.symm hne, Prod.mk.injEq, ih]

/-- C10: No de-duplication: a key occurring n times in the configured list
whose lookup is defined contributes its (key, value) pair exactly n times,
one per configured position — the collected parts are precisely the
per-position resolved pairs rendered in configured order. -/
theorem no_dedup (keys : List String) (c : Ctx) (k v : String)
    (h : c k = some v) :
    (specPairsKV keys c).count (k, v) = keys.count k ∧
    extractLoop c [] keys = (specPairsKV keys c).map (fun p => p.1 ++ "=" ++ p.2) := by
  refine ⟨specPairsKV_count keys c k v h, ?_⟩
  rw [extractLoop_eq c keys []]
  simp only [List.nil_append, specPairs, specPairsKV, List.map_filterMap]
  congr 1
  funext a
  cases c a <;> rfl

/-- A context defining `request_id` with rendered value `abc`. -/
def ctxDup : Ctx := fun key => if key = "request_id" then some "abc" else none

/-- Witness for C10 on a key list with a duplicated key. -/
theorem no_dedup_witness :
    ctxDup "request_id" = some "abc" ∧
    ((specPairsKV ["request_id", "request_id"] ctxDup).count ("request_id", "abc") =
      (["request_id", "request_id"] : List String).count "request_id" ∧
    extractLoop ctxDup [] ["request_id", "request_id"] =
      (specPairsKV ["request_id", "request_id"] ctxDup).map (fun p => p.1 ++ "=" ++ p.2)) :=
  ⟨by decide, no_dedup ["request_id", "request_id"] ctxDup "request_id" "abc" (by decide)⟩

end FtLogging
